import Mathlib

/-!
# Verification of the ResumeRAG text-relevance subsystem

This file is a shallow embedding of the text-relevance code of the ResumeRAG
repository (the `calculateSimilarity`, `extractSnippets`, search route,
job-match route and resume PII-redaction code in `routes/search.js`,
`routes/jobs.js`, `routes/resumes.js`), together with proofs about it.

Modelling conventions:
* JavaScript strings are Lean `String`s, manipulated through structural
  functions on `List Char` (so that every definition evaluates by `decide`).
* A JavaScript number produced by a division `m / n` of two non-negative
  integers is modelled exactly by the fraction `Frac.mk m n`; `den = 0`
  encodes the IEEE `NaN` produced by `0 / 0`.  Comparisons against literals
  (`> 0.01`, `> 0.1`, `> 0.3`, ...) are modelled by exact rational
  comparison via cross-multiplication, which is false on `NaN` exactly as
  the JavaScript `>` is.  The rational value of a score is `Frac.val`.
* `Array.prototype.sort` with the comparator `(a, b) => b.score - a.score`
  is a stable descending sort (stable since ES2019); any two stable sorts
  with the same total preorder agree, so it is modelled by
  `List.insertionSort` with the non-strict "greater or equal score"
  relation, which is stable in the same sense.
-/

/-- An exact non-negative fraction `num / den`.  `den = 0` encodes the
JavaScript `NaN` arising from `0 / 0` (and its propagation through
`Math.round`). -/
structure Frac where
  num : Nat
  den : Nat
deriving DecidableEq

/-- Rational value of a fraction (`NaN` is sent to `0`; statements about
values are only made for fractions with `den ≠ 0`). -/
def Frac.val (f : Frac) : ℚ := (f.num : ℚ) / (f.den : ℚ)

/-- Whether the fraction encodes the JavaScript `NaN` (`0 / 0`). -/
def Frac.isNaN (f : Frac) : Bool := f.den == 0

/-- The JavaScript comparison `f > p / q` on numbers, in exact arithmetic:
false when `f` is `NaN`, and otherwise the exact rational comparison. -/
def Frac.gtFrac (f : Frac) (p q : Nat) : Bool :=
  decide (f.den ≠ 0) && decide (p * f.den < f.num * q)

/-- Non-strict "score of `f` at least score of `g`" by cross-multiplication,
used to model the stable descending sort comparator
`(a, b) => b.score - a.score`. -/
def Frac.geFrac (f g : Frac) : Bool :=
  decide (g.num * f.den ≤ f.num * g.den)

/-- The JavaScript expression `Math.round(f * 100) / 100` in exact
arithmetic.  For a non-negative `x`, `Math.round x = ⌊x + 1/2⌋`, so
`Math.round (100 * m / n) = ⌊(200 m + n) / (2 n)⌋`, a natural division.
`NaN` propagates (`Math.round NaN = NaN`, `NaN / 100 = NaN`). -/
def Frac.round2 (f : Frac) : Frac :=
  if f.den = 0 then ⟨0, 0⟩ else ⟨(200 * f.num + f.den) / (2 * f.den), 100⟩

/-! ## String utilities (structural models of the JavaScript operations) -/

/-- `text.toLowerCase()` (ASCII case folding, as all the repository's
token-level comparisons are ASCII). -/
def jsToLower (s : String) : String := ⟨s.data.map Char.toLower⟩

/-- Auxiliary state for `splitRuns`: the run currently being built and the
completed runs to the right. -/
def splitRunsAux (p : Char → Bool) (l : List Char) : List Char × List (List Char) :=
  l.foldr
    (fun c acc =>
      if p c then (c :: acc.1, acc.2)
      else ([], if acc.1.isEmpty then acc.2 else acc.1 :: acc.2))
    ([], [])

/-- Splits a character list into its maximal runs of characters satisfying
`p` (runs of characters failing `p` act as separators and are dropped,
empty fragments are dropped).  Models `String.prototype.split` on a regular
expression matching one-or-more separator characters, up to the empty
fragments which every caller in the source immediately filters away. -/
def splitRuns (p : Char → Bool) (l : List Char) : List (List Char) :=
  let a := splitRunsAux p l
  if a.1.isEmpty then a.2 else a.1 :: a.2

/-- `str.split(sep)` for a single-character separator, keeping empty
fragments exactly as JavaScript does (`"a  b".split(' ') = ["a","","b"]`). -/
def jsSplitOn (sep : Char) (l : List Char) : List (List Char) :=
  l.foldr
    (fun c acc =>
      match acc with
      | t :: ts => if c == sep then [] :: t :: ts else (c :: t) :: ts
      | [] => [[c]])
    [[]]

/-- Whether `needle` occurs at the start of `hay`. -/
def startsWithList : List Char → List Char → Bool
  | [], _ => true
  | _ :: _, [] => false
  | a :: as, b :: bs => a == b && startsWithList as bs

/-- Whether `needle` occurs contiguously inside `hay`
(`hay.includes(needle)`; true for the empty needle, as in JavaScript). -/
def occursIn (needle : List Char) : List Char → Bool
  | [] => startsWithList needle []
  | c :: t => startsWithList needle (c :: t) || occursIn needle t

/-- `hay.includes(needle)` on strings. -/
def strContains (hay needle : String) : Bool := occursIn needle.data hay.data

/-- Right-trim: drop trailing whitespace. -/
def rtrimList (l : List Char) : List Char :=
  (l.reverse.dropWhile Char.isWhitespace).reverse

/-- `s.trim()`: drop leading then trailing whitespace. -/
def trimList (l : List Char) : List Char :=
  rtrimList (l.dropWhile Char.isWhitespace)

/-- `s.trim()` on strings. -/
def jsTrim (s : String) : String := ⟨trimList s.data⟩

/-! ## Tokenizer and Jaccard similarity (`calculateSimilarity` in
`routes/search.js`) -/

/-- `new natural.WordTokenizer().tokenize(text)`: split into maximal runs of
word characters (non-alphanumeric runs are separators). -/
def wordTokenize (s : String) : List String :=
  (splitRuns Char.isAlphanum s.data).map fun l => ⟨l⟩

/-- The stop-word set of `calculateSimilarity`. -/
def stopWords : List String :=
  ["the", "a", "an", "and", "or", "but", "in", "on", "at", "to", "for", "of", "with", "by"]

/-- Tokens of `text.toLowerCase()` that survive the filter
`token.length > 2 && !stopWords.has(token)`. -/
def filteredTokens (s : String) : List String :=
  (wordTokenize (jsToLower s)).filter fun t => decide (2 < t.length) && !(stopWords.contains t)

/-- `calculateSimilarity(text1, text2)`: Jaccard similarity
`|set1 ∩ set2| / |set1 ∪ set2|` of the filtered token sets.  When both
token sets are empty this is the JavaScript `0 / 0 = NaN`, encoded as
`den = 0` (the source has no guard for this case). -/
def calculateSimilarity (text1 text2 : String) : Frac :=
  let set1 := (filteredTokens text1).toFinset
  let set2 := (filteredTokens text2).toFinset
  ⟨(set1 ∩ set2).card, (set1 ∪ set2).card⟩

/-! ## Snippet extraction (`extractSnippets` in `routes/search.js`) -/

/-- Sentence-splitting characters of `text.split(/[.!?]+/)`. -/
def isSentenceBreak (c : Char) : Bool := c == '.' || c == '!' || c == '?'

/-- A sentence of `extractSnippets` together with its score
`matches / queryWords.length` (the record `{ sentence: sentence.trim(), score }`). -/
def scoreSentence (queryWords : List String) (sentence : String) : String × Frac :=
  let sentenceWords := (jsSplitOn ' ' (jsToLower sentence).data).map fun l => (⟨l⟩ : String)
  let matchCount :=
    (queryWords.filter fun word =>
      sentenceWords.any fun sw => strContains sw word || strContains word sw).length
  (jsTrim sentence, ⟨matchCount, queryWords.length⟩)

/-- Sort relation of `.sort((a, b) => b.score - a.score)` on scored
sentences (stable descending by score). -/
def sentenceGe (a b : String × Frac) : Prop := a.2.geFrac b.2 = true

instance : DecidableRel sentenceGe := fun a b => instDecidableEqBool (a.2.geFrac b.2) true

/-- `extractSnippets(text, query, k)`: split into sentences, keep those with
`sentence.trim().length > 10`, score each by bidirectional substring overlap
with the query words (length > 2) and return the trimmed text of the top
`k`, dropping empty strings. -/
def extractSnippets (text query : String) (k : Nat) : List String :=
  let sentences :=
    ((splitRuns (fun c => !isSentenceBreak c) text.data).map fun l => (⟨l⟩ : String)).filter
      fun s => decide (10 < (jsTrim s).length)
  let queryWords :=
    ((jsSplitOn ' ' (jsToLower query).data).map fun l => (⟨l⟩ : String)).filter
      fun w => decide (2 < w.length)
  let scoredSentences := sentences.map (scoreSentence queryWords)
  ((((scoredSentences.insertionSort sentenceGe).take k).map Prod.fst).filter
    fun s => decide (0 < s.length))

/-! ## The search endpoint (`router.post('/')` in `routes/search.js`) -/

/-- A row of the `resumes` table as selected by the search and match
handlers (`r.id, r.original_name, r.content, u.name as uploader_name`). -/
structure ResumeRow where
  id : Nat
  original_name : String
  content : String
  uploader_name : String
deriving DecidableEq

/-- One element of the search handler's `results` array. -/
structure SearchResult where
  resume_id : Nat
  filename : String
  uploader : String
  similarity_score : Frac
  snippets : List String
  relevance : String
deriving DecidableEq

/-- The search handler's per-resume record:
`similarity > 0.1 ? 'high' : similarity > 0.05 ? 'medium' : 'low'` etc. -/
def mkSearchResult (query : String) (r : ResumeRow) : SearchResult :=
  let similarity := calculateSimilarity r.content query
  { resume_id := r.id
    filename := r.original_name
    uploader := r.uploader_name
    similarity_score := similarity
    snippets := extractSnippets r.content query 2
    relevance :=
      if similarity.gtFrac 1 10 then "high"
      else if similarity.gtFrac 1 20 then "medium" else "low" }

/-- Sort relation of `.sort((a, b) => b.similarity_score - a.similarity_score)`. -/
def searchGe (a b : SearchResult) : Prop :=
  a.similarity_score.geFrac b.similarity_score = true

instance : DecidableRel searchGe := fun a b =>
  instDecidableEqBool (a.similarity_score.geFrac b.similarity_score) true

/-- The `results` list of the search handler: map, filter by the `0.01`
relevance floor, stable-sort descending, truncate to
`Math.min(parseInt(k), 10)`. -/
def searchResults (resumes : List ResumeRow) (query : String) (k : Nat) : List SearchResult :=
  let kNum := min k 10
  ((((resumes.map (mkSearchResult query)).filter
      fun res => res.similarity_score.gtFrac 1 100).insertionSort searchGe).take kNum)

/-! ## The job-match endpoint (`router.post('/:id/match')` in `routes/jobs.js`) -/

/-- A row of the `jobs` table (the fields used by the matcher). -/
structure JobRow where
  title : String
  description : String
  requirements : String
deriving DecidableEq

/-- `jobText.split(' ').filter(w => w.length > 3)` for
`jobText = `${title} ${description} ${requirements}`.toLowerCase()``. -/
def jobKeywords (job : JobRow) : List String :=
  ((jsSplitOn ' '
      (jsToLower (job.title ++ " " ++ job.description ++ " " ++ job.requirements)).data).map
    fun l => (⟨l⟩ : String)).filter fun w => decide (3 < w.length)

/-- `resumeText.split(' ').filter(w => w.length > 3)` for
`resumeText = resume.content.toLowerCase()`. -/
def resumeKeywords (content : String) : List String :=
  ((jsSplitOn ' ' (jsToLower content).data).map fun l => (⟨l⟩ : String)).filter
    fun w => decide (3 < w.length)

/-- Whether a job keyword is matched by some resume keyword through
bidirectional substring containment
(`resumeKeyword.includes(keyword) || keyword.includes(resumeKeyword)`). -/
def keywordHit (resumeKws : List String) (kw : String) : Bool :=
  resumeKws.any fun rk => strContains rk kw || strContains kw rk

/-- `jobKeywords.filter(keyword => resumeKeywords.some(...))`, duplicates
retained in job-keyword order. -/
def matchingKeywords (job : JobRow) (content : String) : List String :=
  (jobKeywords job).filter (keywordHit (resumeKeywords content))

/-- The raw (unrounded) `matchScore = matchingKeywords.length / jobKeywords.length`
(JavaScript `0 / 0 = NaN` when the job has no keywords). -/
def rawMatchScore (job : JobRow) (content : String) : Frac :=
  ⟨(matchingKeywords job content).length, (jobKeywords job).length⟩

/-- One element of the match handler's `matches` array. -/
structure MatchResult where
  resume_id : Nat
  filename : String
  uploader : String
  match_score : Frac
  evidence : List String
  missing_requirements : List String
  recommendation : String
deriving DecidableEq

/-- The match handler's per-resume record.  Note that `match_score` is the
rounded `Math.round(matchScore * 100) / 100` while `recommendation` is
computed from the unrounded `matchScore`. -/
def computeMatch (job : JobRow) (r : ResumeRow) : MatchResult :=
  let matchScore := rawMatchScore job r.content
  { resume_id := r.id
    filename := r.original_name
    uploader := r.uploader_name
    match_score := matchScore.round2
    evidence := (matchingKeywords job r.content).take 5
    missing_requirements :=
      ((jobKeywords job).filter fun kw => !keywordHit (resumeKeywords r.content) kw).take 5
    recommendation :=
      if matchScore.gtFrac 3 10 then "strong"
      else if matchScore.gtFrac 1 10 then "moderate" else "weak" }

/-- Sort relation of `.sort((a, b) => b.match_score - a.match_score)`. -/
def matchGe (a b : MatchResult) : Prop := a.match_score.geFrac b.match_score = true

instance : DecidableRel matchGe := fun a b =>
  instDecidableEqBool (a.match_score.geFrac b.match_score) true

/-- The `matches` list of the match handler: map, keep `match_score > 0`,
stable-sort descending, truncate to `Math.min(parseInt(top_n), 20)`. -/
def matchResults (job : JobRow) (resumes : List ResumeRow) (topN : Nat) : List MatchResult :=
  ((((resumes.map (computeMatch job)).filter
      fun m => m.match_score.gtFrac 0 1).insertionSort matchGe).take (min topN 20))

/-! ## PII redaction (`router.get('/:id')` in `routes/resumes.js`)

The handler applies two JavaScript global regex replacements to the stored
content when the caller's role is neither `recruiter` nor `admin`:

* `/\b[A-Za-z0-9._%+-]+@[A-Za-z0-9.-]+\.[A-Z|a-z]{2,}\b/g` → `[EMAIL REDACTED]`
* `/\b\d{3}[-.]?\d{3}[-.]?\d{4}\b/g` → `[PHONE REDACTED]`

The two regexes are embedded as specialised backtracking matchers with the
exact JavaScript semantics: greedy quantifiers trying longer runs first,
`\b` holding at a position exactly when one of the two adjacent characters
is a word character (`[A-Za-z0-9_]`, with out-of-string counting as
non-word), and global replacement scanning left to right, resuming after
each match without rescanning the replacement text. -/

/-- JavaScript `\w` (ASCII letters, digits and underscore). -/
def isWordChar (c : Char) : Bool := c.isAlphanum || c == '_'

/-- JavaScript `\b` between an optional previous and next character:
exactly one side is a word character. -/
def boundaryOk (prev next : Option Char) : Bool :=
  (match prev with | some c => isWordChar c | none => false)
    != (match next with | some c => isWordChar c | none => false)

/-- Consume exactly `n` digits, returning the remaining characters. -/
def takeDigits : Nat → List Char → Option (List Char)
  | 0, l => some l
  | _ + 1, [] => none
  | n + 1, c :: t => if c.isDigit then takeDigits n t else none

/-- A phone-separator character (`[-.]`). -/
def isPhoneSep (c : Char) : Bool := c == '-' || c == '.'

/-- Trailing `\b` of the phone regex: the last matched character is a digit
(a word character), so the next character must be non-word or absent. -/
def phoneEnd (rest : List Char) : Option (List Char) :=
  if boundaryOk (some '0') rest.head? then some rest else none

/-- `\d{4}\b` tail of the phone regex. -/
def phoneLast4 (l : List Char) : Option (List Char) :=
  (takeDigits 4 l).bind phoneEnd

/-- `[-.]?\d{4}\b`: the optional separator is tried greedily (present
first, absent on backtracking). -/
def phoneSep2 (l : List Char) : Option (List Char) :=
  (match l with
    | c :: t => if isPhoneSep c then phoneLast4 t else none
    | [] => none).orElse fun _ => phoneLast4 l

/-- `\d{3}[-.]?\d{4}\b` tail of the phone regex. -/
def phoneMid3 (l : List Char) : Option (List Char) :=
  (takeDigits 3 l).bind phoneSep2

/-- `[-.]?\d{3}[-.]?\d{4}\b`: first optional separator, greedy. -/
def phoneSep1 (l : List Char) : Option (List Char) :=
  (match l with
    | c :: t => if isPhoneSep c then phoneMid3 t else none
    | [] => none).orElse fun _ => phoneMid3 l

/-- Attempt of the whole phone regex at the current position, given the
character left of the position.  Returns the characters after the match. -/
def phoneMatchAt (prev : Option Char) (l : List Char) : Option (List Char) :=
  if boundaryOk prev l.head? then (takeDigits 3 l).bind phoneSep1 else none

/-- Greedy quantifier driver: try `cont i` for `i = hi, hi - 1, ..., lo`
(longest first), failing if every attempt fails. -/
def greedyTry (cont : Nat → Option (List Char)) (lo : Nat) : Nat → Option (List Char)
  | 0 => if lo = 0 then cont 0 else none
  | i + 1 =>
    if i + 1 < lo then none
    else (cont (i + 1)).orElse fun _ => greedyTry cont lo i

/-- Local-part character class `[A-Za-z0-9._%+-]` of the email regex. -/
def isLocalChar (c : Char) : Bool :=
  c.isAlphanum || c == '.' || c == '_' || c == '%' || c == '+' || c == '-'

/-- Domain character class `[A-Za-z0-9.-]` of the email regex. -/
def isDomainChar (c : Char) : Bool := c.isAlphanum || c == '.' || c == '-'

/-- Top-level-domain character class `[A-Z|a-z]` of the email regex (the
literal `|` inside the class is part of the class, a quirk of the source
pattern). -/
def isTldChar (c : Char) : Bool := c.isAlpha || c == '|'

/-- `[A-Z|a-z]{2,}\b` tail of the email regex after the dot: greedy over
the run of TLD characters, at least 2, with the trailing `\b` judged from
the actual last matched character (which may be the non-word `|`). -/
def emailTld (afterDot : List Char) : Option (List Char) :=
  let run := afterDot.takeWhile isTldChar
  greedyTry
    (fun i =>
      match (run.take i).getLast? with
      | some lastC =>
          if boundaryOk (some lastC) (afterDot.drop i).head? then some (afterDot.drop i)
          else none
      | none => none)
    2 run.length

/-- `[A-Za-z0-9.-]+\.[A-Z|a-z]{2,}\b` tail of the email regex after the
`@`: greedy over the domain run, then a literal dot. -/
def emailDomain (afterAt : List Char) : Option (List Char) :=
  let run := afterAt.takeWhile isDomainChar
  greedyTry
    (fun i =>
      match afterAt.drop i with
      | '.' :: restAfterDot => emailTld restAfterDot
      | _ => none)
    1 run.length

/-- Attempt of the whole email regex at the current position. -/
def emailMatchAt (prev : Option Char) (l : List Char) : Option (List Char) :=
  if boundaryOk prev l.head? then
    let run := l.takeWhile isLocalChar
    greedyTry
      (fun i =>
        match l.drop i with
        | '@' :: afterAt => emailDomain afterAt
        | _ => none)
      1 run.length
  else none

/-- Global regex replacement (`str.replace(re, repl)` with the `g` flag):
scan left to right; at a match emit the replacement and resume right after
the matched characters (the character left of the resume point is the last
matched character); otherwise keep the character and advance.  `fuel`
(initially the length of the list) bounds the recursion; every step
consumes at least one character, so the fuel can never be exhausted. -/
def replaceAllAux (matchAt : Option Char → List Char → Option (List Char))
    (repl : List Char) : Nat → Option Char → List Char → List Char
  | 0, _, l => l
  | _ + 1, _, [] => []
  | fuel + 1, prev, c :: t =>
    match matchAt prev (c :: t) with
    | some rest =>
        let matchedLen := (c :: t).length - rest.length
        repl ++ replaceAllAux matchAt repl fuel (((c :: t).take matchedLen).getLast?) rest
    | none => c :: replaceAllAux matchAt repl fuel (some c) t

/-- `str.replace(re, repl)` with the `g` flag for one of the two embedded
regexes. -/
def replaceAll (matchAt : Option Char → List Char → Option (List Char))
    (repl : List Char) (l : List Char) : List Char :=
  replaceAllAux matchAt repl l.length none l

/-- The PII redaction applied by the resume GET handler to non-privileged
callers: email replacement first, then phone replacement on its output. -/
def redactPII (content : String) : String :=
  let step1 := replaceAll emailMatchAt "[EMAIL REDACTED]".data content.data
  let step2 := replaceAll phoneMatchAt "[PHONE REDACTED]".data step1
  ⟨step2⟩

/-- The response view assembled by `router.get('/:id')` (the fields the
claims are about). -/
structure ResumeView where
  id : Nat
  filename : String
  content : String
  uploader : String
deriving DecidableEq

/-- The resume GET handler: redacts for roles other than `recruiter` and
`admin`, and only reads the stored row.  The second component is the stored
row after the request (the handler never writes it). -/
def getResumeHandler (row : ResumeRow) (role : String) : ResumeView × ResumeRow :=
  let content :=
    if role ≠ "recruiter" ∧ role ≠ "admin" then redactPII row.content else row.content
  ({ id := row.id, filename := row.original_name, content := content,
     uploader := row.uploader_name }, row)

/-! Occurrence of a phone-shaped substring: a substring that, taken on its
own, matches the phone pattern `\d{3}[-.]?\d{3}[-.]?\d{4}` (at the edges of
a standalone string the `\b` anchors of the source regex hold trivially, so
this is exactly "some substring matches the phone regex"). -/

/-- `[-.]?\d{4}` core tail. -/
def phoneSep2Core (l : List Char) : Option (List Char) :=
  (match l with
    | c :: t => if isPhoneSep c then takeDigits 4 t else none
    | [] => none).orElse fun _ => takeDigits 4 l

/-- `\d{3}[-.]?\d{4}` core tail. -/
def phoneMid3Core (l : List Char) : Option (List Char) :=
  (takeDigits 3 l).bind phoneSep2Core

/-- `[-.]?\d{3}[-.]?\d{4}` with greedy optional separators, no boundary
conditions. -/
def phoneSep1Core (l : List Char) : Option (List Char) :=
  (match l with
    | c :: t => if isPhoneSep c then phoneMid3Core t else none
    | [] => none).orElse fun _ => phoneMid3Core l

/-- Whether the phone pattern core can be parsed starting at the head. -/
def phoneCoreAt (l : List Char) : Bool :=
  ((takeDigits 3 l).bind phoneSep1Core).isSome

/-- Whether some substring of `l` is phone-shaped. -/
def hasPhoneShaped : List Char → Bool
  | [] => phoneCoreAt []
  | c :: t => phoneCoreAt (c :: t) || hasPhoneShaped t

/-! ## Request/response level models of the two scoring endpoints

Only the control flow that the claims are about is modelled: input
validation, the scoring pipeline, the audit/cache write whose failure the
code logs (`console.error`) without changing the response, and the JSON
response.  The boolean `auditWriteOk` stands for whether the
`INSERT INTO search_queries` (resp. the `INSERT OR REPLACE INTO
job_matches` promises) succeed; the second component of the result is the
list of `console.error` log lines. -/

/-- Outcome of a handler: a JSON success value or an error envelope
(status code and error code). -/
inductive Outcome (α : Type) where
  | ok (value : α)
  | error (status : Nat) (code : String)
deriving DecidableEq

/-- The search endpoint's success payload
(`{ query, results, total_found, ... }`). -/
structure SearchResponse where
  query : String
  results : List SearchResult
  total_found : Nat
deriving DecidableEq

/-- `router.post('/')` of `routes/search.js`: reject an empty query with
`400 FIELD_REQUIRED`; otherwise score, attempt the `search_queries` cache
insert (failure only logged), and respond with the full result list. -/
def searchHandler (resumes : List ResumeRow) (query : String) (k : Nat)
    (auditWriteOk : Bool) : Outcome SearchResponse × List String :=
  if query = "" then (.error 400 "FIELD_REQUIRED", [])
  else
    let results := searchResults resumes query k
    let logLines := if auditWriteOk then [] else ["Failed to cache query:"]
    (.ok { query := query, results := results, total_found := results.length }, logLines)

/-- The match endpoint's success payload; `match_items` models the JSON
field `matches` (`{ job_id, job_title, matches, total_matches, ... }`). -/
structure MatchResponse where
  job_title : String
  match_items : List MatchResult
  total_matches : Nat
deriving DecidableEq

/-- `router.post('/:id/match')` of `routes/jobs.js`: forbid non-recruiter,
non-admin callers; 404 when the job row is absent; otherwise score, attempt
the `job_matches` inserts (a failed `Promise.all` is caught, logged, and the
same response is sent in the `.catch` branch), and respond with the full
match list. -/
def matchHandler (role : String) (job : Option JobRow) (resumes : List ResumeRow)
    (topN : Nat) (auditWriteOk : Bool) : Outcome MatchResponse × List String :=
  if ¬(role = "recruiter" ∨ role = "admin") then (.error 403 "FORBIDDEN", [])
  else
    match job with
    | none => (.error 404 "NOT_FOUND", [])
    | some j =>
      let ranked := matchResults j resumes topN
      let logLines := if auditWriteOk then [] else ["Failed to store matches:"]
      (.ok { job_title := j.title, match_items := ranked, total_matches := ranked.length },
        logLines)

/-! ## Concrete rows used by witnesses and counterexamples -/

/-- A resume whose content overlaps a sample query. -/
def sampleResume : ResumeRow := ⟨1, "resume.txt", "python developer expert", "alice"⟩

/-- A job with three keywords (`aaaa bbbb cccc`). -/
def triKeywordJob : JobRow := ⟨"aaaa", "bbbb", "cccc"⟩

/-- A resume matching exactly one of `triKeywordJob`'s three keywords, so
the raw match score is `1/3 = 0.333...`. -/
def oneWordResume : ResumeRow := ⟨2, "short.txt", "aaaa", "bob"⟩

/-- A job with 23 keywords, 7 of which occur in `borderlineResume`, so the
raw match score is `7/23 ≈ 0.3043` (above `0.3`) while the rounded score is
exactly `0.30` (not above `0.3`). -/
def borderlineJob : JobRow :=
  ⟨"mata matb matc matd mate matf matg",
   "nota notb notc notd note notf notg noth noti notj notk notl notm notn noto notp", ""⟩

/-- The resume containing the 7 matched keywords of `borderlineJob`. -/
def borderlineResume : ResumeRow := ⟨3, "match.txt", "mata matb matc matd mate matf matg", "dan"⟩

/-- A resume whose content is a phone number followed by a word character,
so the phone regex finds no match (`\b` fails after the last digit). -/
def phoneResume : ResumeRow := ⟨4, "contact.txt", "555-123-4567x", "carol"⟩

/-! ## General lemmas -/

theorem Frac.val_nonneg (f : Frac) : 0 ≤ f.val :=
  div_nonneg (Nat.cast_nonneg _) (Nat.cast_nonneg _)

theorem Frac.val_le_one {f : Frac} (h : f.num ≤ f.den) : f.val ≤ 1 := by
  rcases Nat.eq_zero_or_pos f.den with hd | hd
  · simp [Frac.val, hd]
  · rw [Frac.val, div_le_one (by exact_mod_cast hd)]
    exact_mod_cast h

theorem Frac.gtFrac_den_ne {f : Frac} {p q : Nat} (h : f.gtFrac p q = true) : f.den ≠ 0 := by
  rw [Frac.gtFrac, Bool.and_eq_true, decide_eq_true_eq, decide_eq_true_eq] at h
  exact h.1

theorem Frac.gtFrac_iff (f : Frac) (p q : Nat) (hq : q ≠ 0) :
    f.gtFrac p q = true ↔ (p : ℚ) / (q : ℚ) < f.val := by
  rcases Nat.eq_zero_or_pos f.den with hd | hd
  · have hval : f.val = 0 := by simp [Frac.val, hd]
    have hlhs : f.gtFrac p q = false := by simp [Frac.gtFrac, hd]
    rw [hval, hlhs]
    simp only [Bool.false_eq_true, false_iff, not_lt]
    positivity
  · rw [Frac.val, div_lt_div_iff₀ (by exact_mod_cast Nat.pos_of_ne_zero hq)
      (by exact_mod_cast hd)]
    simp only [Frac.gtFrac, Bool.and_eq_true, decide_eq_true_eq]
    constructor
    · intro h
      exact_mod_cast h.2
    · intro h
      exact ⟨by omega, by exact_mod_cast h⟩

theorem Frac.round2_num_le_den {f : Frac} (h : f.num ≤ f.den) :
    f.round2.num ≤ f.round2.den := by
  rw [Frac.round2]
  split
  · exact le_refl 0
  · rename_i hd
    have hdpos : 0 < f.den := Nat.pos_of_ne_zero hd
    have hlt : (200 * f.num + f.den) / (2 * f.den) < 101 := by
      rw [Nat.div_lt_iff_lt_mul (by omega)]
      omega
    simpa using Nat.lt_succ_iff.mp hlt

/-- The rounded score of `Frac.round2` as a genuine rounding of the
rational value: for `den ≠ 0`,
`(f.round2).val = Math.round(f.val * 100) / 100`. -/
theorem Frac.round2_val {f : Frac} (hd : f.den ≠ 0) :
    f.round2.val = ((round (f.val * 100) : ℤ) : ℚ) / 100 := by
  rw [Frac.round2, if_neg hd]
  have hval : Frac.val ⟨(200 * f.num + f.den) / (2 * f.den), 100⟩ =
      (((200 * f.num + f.den) / (2 * f.den) : ℕ) : ℚ) / 100 := by
    rw [Frac.val]
    norm_num
  rw [hval, Frac.val]
  have hcast : ((f.num : ℚ) / (f.den : ℚ)) * 100 + 1 / 2 =
      ((200 * f.num + f.den : ℕ) : ℚ) / ((2 * f.den : ℕ) : ℚ) := by
    have hden : ((f.den : ℚ)) ≠ 0 := Nat.cast_ne_zero.mpr hd
    push_cast
    field_simp
    ring
  rw [round_eq, hcast, Rat.floor_natCast_div_natCast, ← Int.natCast_div, Int.cast_natCast]

/-! ## Trim idempotence -/

theorem rtrimList_eq_rdropWhile (l : List Char) :
    rtrimList l = List.rdropWhile Char.isWhitespace l := rfl

theorem dropWhile_head_false {p : α → Bool} {b : α} {bs : List α}
    (h : List.dropWhile p (b :: bs) = b :: bs) : p b = false := by
  by_contra hb
  have hb' : p b = true := by revert hb; cases p b <;> simp
  rw [List.dropWhile_cons_of_pos hb'] at h
  have hlen : (List.dropWhile p bs).length ≤ bs.length :=
    List.Sublist.length_le (List.dropWhile_sublist _)
  rw [h] at hlen
  simp at hlen

theorem dropWhile_trimList (l : List Char) :
    List.dropWhile Char.isWhitespace (trimList l) = trimList l := by
  rw [trimList, rtrimList_eq_rdropWhile]
  set A := List.dropWhile Char.isWhitespace l with hA
  have hfix : List.dropWhile Char.isWhitespace A = A := by
    rw [hA]
    exact List.dropWhile_idempotent _ _
  obtain ⟨t, ht⟩ := List.rdropWhile_prefix Char.isWhitespace A
  cases hB : List.rdropWhile Char.isWhitespace A with
  | nil => simp
  | cons b bs =>
    have hAcons : A = b :: (bs ++ t) := by rw [← ht, hB]; simp
    have hbf : Char.isWhitespace b = false := by
      apply @dropWhile_head_false Char Char.isWhitespace b (bs ++ t)
      rw [← hAcons]
      exact hfix
    rw [List.dropWhile_cons_of_neg (by simp [hbf])]

theorem trimList_idem (l : List Char) : trimList (trimList l) = trimList l := by
  have h1 : trimList (trimList l) = rtrimList (trimList l) := by
    rw [trimList, dropWhile_trimList]
  rw [h1]
  simp only [trimList, rtrimList_eq_rdropWhile]
  exact List.rdropWhile_idempotent _ _

theorem jsTrim_idem (s : String) : jsTrim (jsTrim s) = jsTrim s := by
  simp [jsTrim, trimList_idem]

/-! ## Pipeline lemmas -/

theorem calculateSimilarity_num_le_den (text1 text2 : String) :
    (calculateSimilarity text1 text2).num ≤ (calculateSimilarity text1 text2).den := by
  simp only [calculateSimilarity]
  exact Finset.card_le_card Finset.inter_subset_union

theorem mkSearchResult_score (query : String) (r : ResumeRow) :
    (mkSearchResult query r).similarity_score = calculateSimilarity r.content query := rfl

theorem mem_searchResults {resumes : List ResumeRow} {query : String} {k : Nat}
    {r : SearchResult} (h : r ∈ searchResults resumes query k) :
    r.similarity_score.gtFrac 1 100 = true ∧ ∃ row ∈ resumes, r = mkSearchResult query row := by
  simp only [searchResults] at h
  have h1 := List.mem_of_mem_take h
  rw [List.mem_insertionSort, List.mem_filter] at h1
  obtain ⟨h2, h3⟩ := h1
  rw [List.mem_map] at h2
  obtain ⟨row, hrow, hr⟩ := h2
  exact ⟨h3, row, hrow, hr.symm⟩

theorem searchResults_length_le (resumes : List ResumeRow) (query : String) (k : Nat) :
    (searchResults resumes query k).length ≤ min k 10 := by
  simp only [searchResults]
  calc (List.take (min k 10) _).length ≤ min k 10 := by
        rw [List.length_take]
        exact min_le_left _ _

theorem searchResults_length_le_countP (resumes : List ResumeRow) (query : String) (k : Nat) :
    (searchResults resumes query k).length ≤
      resumes.countP fun row => (calculateSimilarity row.content query).gtFrac 1 100 := by
  simp only [searchResults]
  calc (List.take (min k 10) ((List.filter _ _).insertionSort searchGe)).length
      ≤ ((List.filter (fun res => res.similarity_score.gtFrac 1 100)
          (resumes.map (mkSearchResult query))).insertionSort searchGe).length := by
        rw [List.length_take]
        exact min_le_right _ _
    _ = (List.filter (fun res => res.similarity_score.gtFrac 1 100)
          (resumes.map (mkSearchResult query))).length :=
        (List.perm_insertionSort _ _).length_eq
    _ = (resumes.map (mkSearchResult query)).countP
          (fun res => res.similarity_score.gtFrac 1 100) :=
        (List.countP_eq_length_filter _ _).symm
    _ = resumes.countP fun row => (calculateSimilarity row.content query).gtFrac 1 100 :=
        List.countP_map _ _ _

theorem rawMatchScore_num_le_den (job : JobRow) (content : String) :
    (rawMatchScore job content).num ≤ (rawMatchScore job content).den := by
  simp only [rawMatchScore, matchingKeywords]
  exact List.length_filter_le _ _

theorem computeMatch_score (job : JobRow) (r : ResumeRow) :
    (computeMatch job r).match_score = (rawMatchScore job r.content).round2 := rfl

theorem mem_matchResults {job : JobRow} {resumes : List ResumeRow} {topN : Nat}
    {m : MatchResult} (h : m ∈ matchResults job resumes topN) :
    m.match_score.gtFrac 0 1 = true ∧ ∃ row ∈ resumes, m = computeMatch job row := by
  simp only [matchResults] at h
  have h1 := List.mem_of_mem_take h
  rw [List.mem_insertionSort, List.mem_filter] at h1
  obtain ⟨h2, h3⟩ := h1
  rw [List.mem_map] at h2
  obtain ⟨row, hrow, hr⟩ := h2
  exact ⟨h3, row, hrow, hr.symm⟩

theorem mem_extractSnippets {text query : String} {k : Nat} {s : String}
    (h : s ∈ extractSnippets text query k) :
    ∃ sentence : String, 10 < (jsTrim sentence).length ∧ s = jsTrim sentence := by
  simp only [extractSnippets] at h
  rw [List.mem_filter] at h
  obtain ⟨h1, _⟩ := h
  rw [List.mem_map] at h1
  obtain ⟨pair, hpair, hfst⟩ := h1
  have h2 := List.mem_of_mem_take hpair
  rw [List.mem_insertionSort, List.mem_map] at h2
  obtain ⟨sentence, hsent, hscore⟩ := h2
  rw [List.mem_filter] at hsent
  obtain ⟨_, hlen⟩ := hsent
  refine ⟨sentence, by simpa using hlen, ?_⟩
  rw [← hfst, ← hscore]
  rfl

theorem extractSnippets_length_le (text query : String) (k : Nat) :
    (extractSnippets text query k).length ≤ k := by
  simp only [extractSnippets]
  calc (List.filter _ _).length ≤ (List.map Prod.fst (List.take k _)).length :=
        List.length_filter_le _ _
    _ = (List.take k _).length := List.length_map _ _
    _ ≤ k := by rw [List.length_take]; exact min_le_left _ _

theorem computeMatch_recommendation (job : JobRow) (r : ResumeRow) :
    (computeMatch job r).recommendation =
      if (rawMatchScore job r.content).gtFrac 3 10 then "strong"
      else if (rawMatchScore job r.content).gtFrac 1 10 then "moderate" else "weak" := rfl

/-! ## The claims -/

/-- C1: the spec mandates that `calculateSimilarity` return `0` (not `NaN`)
when both filtered token sets are empty, and itself records that the
original has no explicit guard.  Evaluating the code at the failing input
(two empty texts) shows the unguarded `0 / 0`: the result is the JavaScript
`NaN` (the fraction with `den = 0`), not `0`. -/
theorem similarity_empty_union_is_nan :
    calculateSimilarity "" "" = ⟨0, 0⟩ ∧ (calculateSimilarity "" "").isNaN = true := by
  decide

/-- C7: `calculateSimilarity` is symmetric in its two arguments for all
input texts, including those whose filtered token sets are empty (both
sides are then the same `NaN` fraction). -/
theorem calculateSimilarity_symm :
    ∀ text1 text2 : String, calculateSimilarity text1 text2 = calculateSimilarity text2 text1 := by
  intro t1 t2
  simp only [calculateSimilarity]
  rw [Finset.inter_comm, Finset.union_comm]

/-- C10: regardless of the requested bound `k` (even `k = 100`), the search
handler returns at most 10 results, because it caps the effective bound at
10 (`Math.min(parseInt(k), 10)`) before truncating. -/
theorem searchResults_capped_at_ten :
    ∀ (resumes : List ResumeRow) (query : String) (k : Nat),
      (searchResults resumes query k).length ≤ 10 :=
  fun resumes query k =>
    le_trans (searchResults_length_le resumes query k) (min_le_right _ _)

/-- C9: `extractSnippets` returns at most `k` snippets, and every returned
snippet has length at least 10 characters after trimming (the code keeps
only sentences whose trimmed length exceeds 10 and returns them trimmed). -/
theorem extractSnippets_bounds :
    ∀ (text query : String) (k : Nat),
      (extractSnippets text query k).length ≤ k ∧
      ∀ s ∈ extractSnippets text query k, 10 ≤ (jsTrim s).length := by
  intro text query k
  refine ⟨extractSnippets_length_le text query k, ?_⟩
  intro s hs
  obtain ⟨sentence, hlen, hs'⟩ := mem_extractSnippets hs
  rw [hs', jsTrim_idem]
  omega

/-- Witness for C9 at a concrete document, query and count. -/
theorem extractSnippets_bounds_witness :
    (extractSnippets "python developer with experience. no" "python" 3).length ≤ 3 ∧
    10 ≤ (jsTrim "python developer with experience").length :=
  ⟨(extractSnippets_bounds "python developer with experience. no" "python" 3).1,
   (extractSnippets_bounds "python developer with experience. no" "python" 3).2
     "python developer with experience" (by decide)⟩

/-- C4: the search handler returns at most `k` results, at most as many
results as there are candidate resumes whose similarity exceeds the `0.01`
relevance floor, and every returned result's similarity score strictly
exceeds `0.01`. -/
theorem search_truncation_bounds :
    ∀ (resumes : List ResumeRow) (query : String) (k : Nat),
      (searchResults resumes query k).length ≤ k ∧
      (searchResults resumes query k).length ≤
        resumes.countP (fun row => (calculateSimilarity row.content query).gtFrac 1 100) ∧
      ∀ r ∈ searchResults resumes query k, (1 : ℚ) / 100 < r.similarity_score.val := by
  intro resumes query k
  refine ⟨le_trans (searchResults_length_le _ _ _) (min_le_left _ _),
    searchResults_length_le_countP _ _ _, ?_⟩
  intro r hr
  have hgt := (mem_searchResults hr).1
  have h := (Frac.gtFrac_iff r.similarity_score 1 100 (by omega)).mp hgt
  push_cast at h
  exact h

/-- Witness for C4 at a concrete resume list, query and bound. -/
theorem search_truncation_bounds_witness :
    (searchResults [sampleResume] "python developer" 3).length ≤ 3 ∧
    (1 : ℚ) / 100 < (mkSearchResult "python developer" sampleResume).similarity_score.val :=
  ⟨(search_truncation_bounds [sampleResume] "python developer" 3).1,
   (search_truncation_bounds [sampleResume] "python developer" 3).2.2
     (mkSearchResult "python developer" sampleResume) (by decide)⟩

/-- C3: every score returned by the search endpoint (`similarity_score`) or
the job-match endpoint (`match_score`) lies in `[0, 1]`, for all document
texts and query/job texts (degenerate inputs produce `NaN` scores, which
the relevance filters exclude from the returned lists). -/
theorem scores_within_unit_interval :
    (∀ (resumes : List ResumeRow) (query : String) (k : Nat),
      ∀ r ∈ searchResults resumes query k,
        0 ≤ r.similarity_score.val ∧ r.similarity_score.val ≤ 1) ∧
    (∀ (job : JobRow) (resumes : List ResumeRow) (topN : Nat),
      ∀ m ∈ matchResults job resumes topN,
        0 ≤ m.match_score.val ∧ m.match_score.val ≤ 1) := by
  constructor
  · intro resumes query k r hr
    obtain ⟨_, row, _, hr'⟩ := mem_searchResults hr
    refine ⟨Frac.val_nonneg _, Frac.val_le_one ?_⟩
    rw [hr', mkSearchResult_score]
    exact calculateSimilarity_num_le_den _ _
  · intro job resumes topN m hm
    obtain ⟨_, row, _, hm'⟩ := mem_matchResults hm
    refine ⟨Frac.val_nonneg _, Frac.val_le_one ?_⟩
    rw [hm', computeMatch_score]
    exact Frac.round2_num_le_den (rawMatchScore_num_le_den _ _)

/-- Witness for C3: a concrete returned search result and a concrete
returned match result. -/
theorem scores_within_unit_interval_witness :
    (0 ≤ (mkSearchResult "python developer" sampleResume).similarity_score.val ∧
      (mkSearchResult "python developer" sampleResume).similarity_score.val ≤ 1) ∧
    (0 ≤ (computeMatch triKeywordJob oneWordResume).match_score.val ∧
      (computeMatch triKeywordJob oneWordResume).match_score.val ≤ 1) :=
  ⟨scores_within_unit_interval.1 [sampleResume] "python developer" 3
      (mkSearchResult "python developer" sampleResume) (by decide),
   scores_within_unit_interval.2 triKeywordJob [oneWordResume] 5
      (computeMatch triKeywordJob oneWordResume) (by decide)⟩

/-- C2 (counterexample): the returned `match_score` is
`Math.round(matchScore * 100) / 100`, not the exact ratio.  For a job with
3 keywords of which 1 matches, the handler returns `0.33`, which differs
from `1/3`; the record is in the returned `matches` list. -/
theorem match_score_rounding_counterexample :
    computeMatch triKeywordJob oneWordResume ∈ matchResults triKeywordJob [oneWordResume] 5 ∧
    (computeMatch triKeywordJob oneWordResume).match_score.val ≠
      ((matchingKeywords triKeywordJob oneWordResume.content).length : ℚ) /
        ((jobKeywords triKeywordJob).length : ℚ) := by
  refine ⟨by decide, ?_⟩
  have h1 : (computeMatch triKeywordJob oneWordResume).match_score = ⟨33, 100⟩ := by decide
  have h2 : (matchingKeywords triKeywordJob oneWordResume.content).length = 1 := by decide
  have h3 : (jobKeywords triKeywordJob).length = 3 := by decide
  rw [h1, h2, h3, Frac.val]
  push_cast
  norm_num

/-- C2 (amended): for every job with a non-empty keyword sequence and every
resume, the returned `match_score` equals the number of matched job
keywords (duplicates retained) divided by the length of the job keyword
sequence, rounded to two decimal places (`Math.round(x * 100) / 100`). -/
theorem match_score_eq_rounded_ratio :
    ∀ (job : JobRow) (r : ResumeRow), (jobKeywords job).length ≠ 0 →
      (computeMatch job r).match_score.val =
        ((round ((((matchingKeywords job r.content).length : ℚ) /
          ((jobKeywords job).length : ℚ)) * 100) : ℤ) : ℚ) / 100 := by
  intro job r h
  rw [computeMatch_score, Frac.round2_val h]
  rfl

/-- Witness for the amended C2 at a concrete job and resume. -/
theorem match_score_eq_rounded_ratio_witness :
    (jobKeywords triKeywordJob).length ≠ 0 ∧
    (computeMatch triKeywordJob oneWordResume).match_score.val =
      ((round ((((matchingKeywords triKeywordJob oneWordResume.content).length : ℚ) /
        ((jobKeywords triKeywordJob).length : ℚ)) * 100) : ℤ) : ℚ) / 100 :=
  ⟨by decide, match_score_eq_rounded_ratio triKeywordJob oneWordResume (by decide)⟩

/-- C5 (counterexample): the `recommendation` is computed from the
unrounded score while the returned `match_score` is rounded.  With 23 job
keywords and 7 matches the raw score `7/23 ≈ 0.3043` exceeds `0.3`, so the
returned record says `"strong"`, yet its `match_score` is exactly `0.30`,
which does not exceed `0.3`. -/
theorem recommendation_rounding_counterexample :
    computeMatch borderlineJob borderlineResume ∈
      matchResults borderlineJob [borderlineResume] 5 ∧
    (computeMatch borderlineJob borderlineResume).recommendation = "strong" ∧
    ¬((3 : ℚ) / 10 < (computeMatch borderlineJob borderlineResume).match_score.val) := by
  refine ⟨by decide, by decide, ?_⟩
  have h : (computeMatch borderlineJob borderlineResume).match_score = ⟨30, 100⟩ := by decide
  rw [h, Frac.val]
  push_cast
  norm_num

/-- C5 (amended): the `recommendation` tiers are determined by the
unrounded ratio (`strong` iff it exceeds `0.3`, `moderate` iff it exceeds
`0.1` but not `0.3`, `weak` otherwise), and every returned result has
(rounded) `match_score` strictly greater than `0`. -/
theorem recommendation_from_raw_score :
    (∀ (job : JobRow) (r : ResumeRow),
      ((computeMatch job r).recommendation = "strong" ↔
        (3 : ℚ) / 10 < (rawMatchScore job r.content).val) ∧
      ((computeMatch job r).recommendation = "moderate" ↔
        ((1 : ℚ) / 10 < (rawMatchScore job r.content).val ∧
          ¬((3 : ℚ) / 10 < (rawMatchScore job r.content).val))) ∧
      ((computeMatch job r).recommendation = "weak" ↔
        ¬((1 : ℚ) / 10 < (rawMatchScore job r.content).val))) ∧
    (∀ (job : JobRow) (resumes : List ResumeRow) (topN : Nat),
      ∀ m ∈ matchResults job resumes topN, 0 < m.match_score.val) := by
  constructor
  · intro job r
    have h3 := Frac.gtFrac_iff (rawMatchScore job r.content) 3 10 (by omega)
    have h1 := Frac.gtFrac_iff (rawMatchScore job r.content) 1 10 (by omega)
    push_cast at h3 h1
    simp only [computeMatch_recommendation]
    by_cases hb3 : (rawMatchScore job r.content).gtFrac 3 10 = true
    · have hv3 := h3.mp hb3
      have hv1 : (1 : ℚ) / 10 < (rawMatchScore job r.content).val :=
        lt_trans (by norm_num) hv3
      rw [if_pos hb3]
      exact ⟨iff_of_true rfl hv3,
        iff_of_false (by decide) (fun hc => hc.2 hv3),
        iff_of_false (by decide) (fun hn => hn hv1)⟩
    · have hv3 : ¬((3 : ℚ) / 10 < (rawMatchScore job r.content).val) :=
        fun hlt => hb3 (h3.mpr hlt)
      rw [if_neg hb3]
      by_cases hb1 : (rawMatchScore job r.content).gtFrac 1 10 = true
      · have hv1 := h1.mp hb1
        rw [if_pos hb1]
        exact ⟨iff_of_false (by decide) hv3,
          iff_of_true rfl ⟨hv1, hv3⟩,
          iff_of_false (by decide) (fun hn => hn hv1)⟩
      · have hv1 : ¬((1 : ℚ) / 10 < (rawMatchScore job r.content).val) :=
          fun hlt => hb1 (h1.mpr hlt)
        rw [if_neg hb1]
        exact ⟨iff_of_false (by decide) hv3,
          iff_of_false (by decide) (fun hc => hv1 hc.1),
          iff_of_true rfl hv1⟩
  · intro job resumes topN m hm
    have hgt := (mem_matchResults hm).1
    have h := (Frac.gtFrac_iff m.match_score 0 1 (by omega)).mp hgt
    push_cast at h
    simpa using h

/-- Witness for the amended C5 at a concrete job and a concrete returned
match result. -/
theorem recommendation_from_raw_score_witness :
    ((computeMatch borderlineJob borderlineResume).recommendation = "strong" ↔
      (3 : ℚ) / 10 < (rawMatchScore borderlineJob borderlineResume.content).val) ∧
    0 < (computeMatch borderlineJob borderlineResume).match_score.val :=
  ⟨(recommendation_from_raw_score.1 borderlineJob borderlineResume).1,
   recommendation_from_raw_score.2 borderlineJob [borderlineResume] 5
     (computeMatch borderlineJob borderlineResume) (by decide)⟩

/-- C6 (counterexample): for the non-privileged role `user`, the fetched
content can still contain a phone-pattern substring.  The stored content
`"555-123-4567x"` is returned unchanged (the code's phone regex requires a
word boundary after the last digit, which the trailing `x` defeats), and
the output contains the phone-shaped substring `555-123-4567`. -/
theorem redaction_misses_embedded_phone :
    ¬(("user" : String) = "recruiter" ∨ ("user" : String) = "admin") ∧
    (getResumeHandler phoneResume "user").1.content = "555-123-4567x" ∧
    hasPhoneShaped ((getResumeHandler phoneResume "user").1.content).data = true := by
  refine ⟨by decide, by decide, by decide⟩

/-- C6 (amended): for roles other than `recruiter` and `admin` the returned
content is exactly the result of the two word-boundary-anchored global
regex replacements (so email/phone-shaped substrings adjacent to word
characters can survive); for `recruiter` and `admin` the returned content
is byte-identical to the stored content; and the stored row is never
modified by the handler. -/
theorem redaction_role_behavior :
    (∀ (row : ResumeRow) (role : String), role ≠ "recruiter" → role ≠ "admin" →
      (getResumeHandler row role).1.content = redactPII row.content) ∧
    (∀ (row : ResumeRow) (role : String), role = "recruiter" ∨ role = "admin" →
      (getResumeHandler row role).1.content = row.content) ∧
    (∀ (row : ResumeRow) (role : String), (getResumeHandler row role).2 = row) := by
  refine ⟨?_, ?_, ?_⟩
  · intro row role h1 h2
    simp [getResumeHandler, h1, h2]
  · intro row role h
    rcases h with h | h <;> subst h <;> simp [getResumeHandler]
  · intro row role
    rfl

/-- Witness for the amended C6 at a concrete row and concrete roles. -/
theorem redaction_role_behavior_witness :
    (getResumeHandler phoneResume "user").1.content = redactPII phoneResume.content ∧
    (getResumeHandler phoneResume "recruiter").1.content = phoneResume.content ∧
    (getResumeHandler phoneResume "user").2 = phoneResume :=
  ⟨redaction_role_behavior.1 phoneResume "user" (by decide) (by decide),
   redaction_role_behavior.2.1 phoneResume "recruiter" (Or.inl rfl),
   redaction_role_behavior.2.2 phoneResume "user"⟩

/-- C8: when scoring succeeds but the audit/cache write fails (the
`search_queries` insert for search, the `job_matches` inserts for
matching), the handlers still respond successfully with the full scored
result list; the response is identical to the one sent when the write
succeeds. -/
theorem audit_write_failure_nonfatal :
    (∀ (resumes : List ResumeRow) (query : String) (k : Nat), query ≠ "" →
      (searchHandler resumes query k false).1 =
        Outcome.ok { query := query
                     results := searchResults resumes query k
                     total_found := (searchResults resumes query k).length } ∧
      (searchHandler resumes query k false).1 = (searchHandler resumes query k true).1) ∧
    (∀ (role : String) (job : JobRow) (resumes : List ResumeRow) (topN : Nat),
      role = "recruiter" ∨ role = "admin" →
      (matchHandler role (some job) resumes topN false).1 =
        Outcome.ok { job_title := job.title
                     match_items := matchResults job resumes topN
                     total_matches := (matchResults job resumes topN).length } ∧
      (matchHandler role (some job) resumes topN false).1 =
        (matchHandler role (some job) resumes topN true).1) := by
  constructor
  · intro resumes query k hq
    constructor <;> simp [searchHandler, hq]
  · intro role job resumes topN hrole
    rcases hrole with h | h <;> subst h <;> constructor <;> simp [matchHandler]

/-- Witness for C8 at a concrete query, job and resume list. -/
theorem audit_write_failure_nonfatal_witness :
    (searchHandler [sampleResume] "python developer" 3 false).1 =
      Outcome.ok { query := "python developer"
                   results := searchResults [sampleResume] "python developer" 3
                   total_found :=
                     (searchResults [sampleResume] "python developer" 3).length } ∧
    (matchHandler "recruiter" (some triKeywordJob) [oneWordResume] 5 false).1 =
      (matchHandler "recruiter" (some triKeywordJob) [oneWordResume] 5 true).1 :=
  ⟨(audit_write_failure_nonfatal.1 [sampleResume] "python developer" 3 (by decide)).1,
   (audit_write_failure_nonfatal.2 "recruiter" triKeywordJob [oneWordResume] 5
     (Or.inl rfl)).2⟩
